import Mathlib

/-!
Verification of the custodial wallet key-management subsystem of the
ArbitrumSmartchain repository (walletService, transactionService,
contractService, the register / wallet-decrypt routes).

JavaScript strings are shallowly embedded as `List Char`; byte buffers as
`List Nat` (each element below 256).  External cryptographic primitives
(node's `scryptSync`, ethers' keystore encryption) are parameters of the
definitions, with their contracts stated as explicit hypotheses where a
claim depends on them.
-/

set_option autoImplicit false

namespace ArbitrumSmartchain

/-- JavaScript strings, embedded as lists of characters. -/
abbrev Str := List Char

/-- `String.prototype.split(sep)` for a one-character separator: splits at
every occurrence, keeping empty segments, and always returns at least one
(possibly empty) segment. -/
def jsSplit (sep : Char) : Str → List Str
  | [] => [[]]
  | c :: rest =>
    if c = sep then [] :: jsSplit sep rest
    else
      match jsSplit sep rest with
      | [] => [[c]]
      | h :: t => (c :: h) :: t

theorem jsSplit_ne_nil (sep : Char) (s : Str) : jsSplit sep s ≠ [] := by
  induction s with
  | nil => simp [jsSplit]
  | cons c rest ih =>
    simp only [jsSplit]
    by_cases h : c = sep
    · simp [h]
    · simp only [if_neg h]
      cases jsSplit sep rest with
      | nil => simp
      | cons h t => simp

theorem jsSplit_no_sep (sep : Char) (s : Str) (h : sep ∉ s) :
    jsSplit sep s = [s] := by
  induction s with
  | nil => rfl
  | cons c rest ih =>
    have hc : c ≠ sep := fun hc => h (hc ▸ List.mem_cons_self c rest)
    have hrest : sep ∉ rest := fun hm => h (List.mem_cons_of_mem c hm)
    simp only [jsSplit, if_neg hc, ih hrest]

theorem jsSplit_append (sep : Char) (a b : Str) (h : sep ∉ a) :
    jsSplit sep (a ++ sep :: b) = a :: jsSplit sep b := by
  induction a with
  | nil => simp [jsSplit]
  | cons c a' ih =>
    have hc : c ≠ sep := fun hc => h (hc ▸ List.mem_cons_self c a')
    have ha' : sep ∉ a' := fun hm => h (List.mem_cons_of_mem c hm)
    simp only [List.cons_append, jsSplit, if_neg hc, List.append_eq, ih ha']

/-- One base-16 digit, as produced by node's `Buffer.toString('hex')`. -/
def hexDigit : Nat → Char
  | 0 => '0' | 1 => '1' | 2 => '2' | 3 => '3' | 4 => '4'
  | 5 => '5' | 6 => '6' | 7 => '7' | 8 => '8' | 9 => '9'
  | 10 => 'a' | 11 => 'b' | 12 => 'c' | 13 => 'd' | 14 => 'e'
  | _ => 'f'

/-- Hex encoding of a byte buffer (`Buffer.toString('hex')`): two lowercase
hex digits per byte. -/
def hexEncode : List Nat → Str
  | [] => []
  | b :: bs => hexDigit (b / 16) :: hexDigit (b % 16) :: hexEncode bs

theorem hexDigit_ne_colon (n : Nat) : hexDigit n ≠ ':' := by
  unfold hexDigit
  split <;> decide

theorem hexEncode_no_colon (bs : List Nat) : ':' ∉ hexEncode bs := by
  induction bs with
  | nil => simp [hexEncode]
  | cons b bs ih =>
    simp only [hexEncode, List.mem_cons]
    rintro (h | h | h)
    · exact hexDigit_ne_colon _ h.symm
    · exact hexDigit_ne_colon _ h.symm
    · exact ih h

theorem hexEncode_length (bs : List Nat) :
    (hexEncode bs).length = 2 * bs.length := by
  induction bs with
  | nil => rfl
  | cons b bs ih => simp [hexEncode, ih]; omega

theorem hexDigit_inj_lt : ∀ m < 16, ∀ n < 16, hexDigit m = hexDigit n → m = n := by
  decide

theorem hexEncode_inj (a : List Nat) (ha : ∀ x ∈ a, x < 256) :
    ∀ b : List Nat, (∀ x ∈ b, x < 256) → hexEncode a = hexEncode b → a = b := by
  induction a with
  | nil =>
    intro b hb h
    cases b with
    | nil => rfl
    | cons y ys => simp [hexEncode] at h
  | cons x xs ih =>
    intro b hb h
    cases b with
    | nil => simp [hexEncode] at h
    | cons y ys =>
      simp only [hexEncode, List.cons.injEq] at h
      obtain ⟨h1, h2, h3⟩ := h
      have hx : x < 256 := ha x (List.mem_cons_self x xs)
      have hy : y < 256 := hb y (List.mem_cons_self y ys)
      have hxd : x / 16 < 16 := by omega
      have hyd : y / 16 < 16 := by omega
      have hxm : x % 16 < 16 := Nat.mod_lt _ (by omega)
      have hym : y % 16 < 16 := Nat.mod_lt _ (by omega)
      have e1 : x / 16 = y / 16 := hexDigit_inj_lt _ hxd _ hyd h1
      have e2 : x % 16 = y % 16 := hexDigit_inj_lt _ hxm _ hym h2
      have exy : x = y := by omega
      have exs : xs = ys :=
        ih (fun z hz => ha z (List.mem_cons_of_mem x hz)) ys
          (fun z hz => hb z (List.mem_cons_of_mem y hz)) h3
      exact exy ▸ exs ▸ rfl

/-!
WalletService password hashing (src/unnamed/part_007, lines 65-91).

`scryptSync(password, salt, 64).toString('hex')` is an external primitive;
it is a parameter `scrypt : Str → Str → Str` of the definitions below
(first argument the password, second the salt, result the hex-encoded
64-byte derived key).  `randomBytes(16)` is modelled by passing the drawn
byte buffer `saltBytes` explicitly.
-/

/-- WalletService.hashPassword: draws 16 random bytes (here the oracle
argument `saltBytes`), hex-encodes them as the salt, derives the scrypt
hash of the password with that salt, and returns `salt:hash`. -/
def hashPassword (scrypt : Str → Str → Str) (saltBytes : List Nat)
    (password : Str) : Str :=
  let salt := hexEncode saltBytes
  let hash := scrypt password salt
  salt ++ ':' :: hash

/-- WalletService.verifyPassword: splits the stored record on `':'`,
takes the first segment as the salt and the second as the stored hash
(absent — JS `undefined` — when the record has no colon, in which case the
final strict equality is false), re-derives and compares. -/
def verifyPassword (scrypt : Str → Str → Str) (password hashedPassword : Str) :
    Bool :=
  let parts := jsSplit ':' hashedPassword
  let salt := parts.headD []
  match parts[1]? with
  | none => false
  | some storedHash => storedHash == scrypt password salt

/-- Concrete stand-in for the scrypt primitive used by witnesses: escapes
every character into a two-character block (`':'` becomes `xx`, any other
`c` becomes `y c`), ignoring the salt.  Injective in the password and
colon-free, like a collision-free hex-emitting KDF. -/
def escapeChars : Str → Str
  | [] => []
  | c :: cs => if c = ':' then 'x' :: 'x' :: escapeChars cs
               else 'y' :: c :: escapeChars cs

/-- Concrete KDF stand-in for witness instantiations. -/
def mockScrypt (password _salt : Str) : Str := escapeChars password

theorem escapeChars_no_colon (s : Str) : ':' ∉ escapeChars s := by
  induction s with
  | nil => simp [escapeChars]
  | cons c cs ih =>
    simp only [escapeChars]
    by_cases hc : c = ':'
    · simp only [if_pos hc, List.mem_cons]
      rintro (h | h | h) <;> first | exact absurd h.symm (by decide) | exact ih h
    · simp only [if_neg hc, List.mem_cons]
      rintro (h | h | h)
      · exact absurd h.symm (by decide)
      · exact hc h.symm
      · exact ih h

theorem escapeChars_inj : ∀ p q : Str, escapeChars p = escapeChars q → p = q := by
  intro p
  induction p with
  | nil =>
    intro q h
    cases q with
    | nil => rfl
    | cons d q' =>
      simp only [escapeChars] at h
      by_cases hd : d = ':' <;> simp [hd] at h
  | cons c p' ih =>
    intro q h
    cases q with
    | nil =>
      simp only [escapeChars] at h
      by_cases hc : c = ':' <;> simp [hc] at h
    | cons d q' =>
      simp only [escapeChars] at h
      by_cases hc : c = ':' <;> by_cases hd : d = ':'
      · rw [if_pos hc, if_pos hd] at h
        simp only [List.cons.injEq] at h
        rw [hc, hd, ih q' h.2.2]
      · rw [if_pos hc, if_neg hd] at h
        simp only [List.cons.injEq] at h
        exact absurd h.1 (by decide)
      · rw [if_neg hc, if_pos hd] at h
        simp only [List.cons.injEq] at h
        exact absurd h.1 (by decide)
      · rw [if_neg hc, if_neg hd] at h
        simp only [List.cons.injEq] at h
        rw [h.2.1, ih q' h.2.2]

theorem mockScrypt_no_colon (p s : Str) : ':' ∉ mockScrypt p s :=
  escapeChars_no_colon p

theorem mockScrypt_inj (s p p2 : Str) (h : mockScrypt p s = mockScrypt p2 s) :
    p = p2 :=
  escapeChars_inj p p2 h

/-!
WalletService wallet encryption (src/unnamed/part_007, lines 10-58).

`wallet.encrypt(password)` and `ethers.Wallet.fromEncryptedJson(json,
password)` are ethers-library primitives; they are parameters of the
definitions.  The library reports failures with distinguishable causes
(`LibErr`); the service's catch block discards the cause.  The wallet type
is a type parameter `W`.
-/

/-- Failure causes inside the ethers keystore primitive, before the
service's catch block collapses them. -/
inductive LibErr where
  | wrongPassword
  | corruptData
  deriving DecidableEq, Repr

/-- WalletService.encryptWallet: delegates to the library's
`wallet.encrypt(password)` (its catch block rethrows the original error,
so behaviour is that of the primitive). -/
def encryptWallet {W : Type} (encryptLib : W → Str → Str) (wallet : W)
    (password : Str) : Str :=
  encryptLib wallet password

/-- Single opaque error thrown by WalletService.decryptWallet on any
failure. -/
def invalidCredentialMsg : Str := ("Invalid password or corrupted wallet data").toList

/-- WalletService.decryptWallet: calls the library's
`fromEncryptedJson`; its catch block replaces any library error — whatever
its cause — by one fixed opaque error. -/
def decryptWallet {W : Type} (fromEncryptedJson : Str → Str → Except LibErr W)
    (encryptedJson password : Str) : Except Str W :=
  match fromEncryptedJson encryptedJson password with
  | .ok w => .ok w
  | .error _ => .error invalidCredentialMsg

/-- Splits a list at the first occurrence of `sep`, when there is one. -/
def splitFirst (sep : Char) : Str → Option (Str × Str)
  | [] => none
  | c :: rest =>
    if c = sep then some ([], rest)
    else
      match splitFirst sep rest with
      | none => none
      | some (a, b) => some (c :: a, b)

theorem splitFirst_append (sep : Char) (a b : Str) (h : sep ∉ a) :
    splitFirst sep (a ++ sep :: b) = some (a, b) := by
  induction a with
  | nil => simp [splitFirst]
  | cons c a' ih =>
    have hc : c ≠ sep := fun hc => h (hc ▸ List.mem_cons_self c a')
    have ha' : sep ∉ a' := fun hm => h (List.mem_cons_of_mem c hm)
    simp only [List.cons_append, splitFirst, if_neg hc, List.append_eq, ih ha']

/-- Concrete keystore stand-in for witnesses: the "blob" is the wallet
(a `Nat`) in unary, a `'|'`, then the password. -/
def mockEncrypt (wallet : Nat) (password : Str) : Str :=
  List.replicate wallet 'k' ++ '|' :: password

/-- Concrete keystore decryption stand-in for witnesses: parses the unary
prefix and checks the password suffix. -/
def mockFromEncryptedJson (blob password : Str) : Except LibErr Nat :=
  match splitFirst '|' blob with
  | none => .error .corruptData
  | some (a, b) =>
    if a.all (fun c => c == 'k') then
      if b = password then .ok a.length else .error .wrongPassword
    else .error .corruptData

theorem replicate_no_bar (w : Nat) : '|' ∉ List.replicate w 'k' := by
  intro h
  have := List.eq_of_mem_replicate h
  exact absurd this (by decide)

theorem replicate_all_k (w : Nat) :
    (List.replicate w 'k').all (fun c => c == 'k') = true := by
  rw [List.all_eq_true]
  intro c hc
  rw [List.eq_of_mem_replicate hc]
  decide

theorem mock_roundtrip (w : Nat) (p : Str) :
    mockFromEncryptedJson (mockEncrypt w p) p = .ok w := by
  unfold mockEncrypt mockFromEncryptedJson
  rw [splitFirst_append _ _ _ (replicate_no_bar w)]
  simp only [replicate_all_k, if_true, if_pos rfl, List.length_replicate]

theorem mock_auth (w : Nat) (p p2 : Str) (h : p2 ≠ p) :
    (mockFromEncryptedJson (mockEncrypt w p) p2).isOk = false := by
  have hne : ¬ (p = p2) := fun he => h he.symm
  unfold mockEncrypt mockFromEncryptedJson
  rw [splitFirst_append _ _ _ (replicate_no_bar w)]
  simp only [replicate_all_k, if_true, if_neg hne]
  rfl

/-!
ContractService (src/server/contractService.ts).  The three precompiled
{abi, bytecode} template payloads are large constant strings in
src/shared/contracts; they are represented here by distinct atoms, which
is all the claims depend on.
-/

/-- Atoms standing for the three fixed ABI constants. -/
inductive AbiVal where
  | simpleStorage
  | erc20
  | betting
  deriving DecidableEq, Repr

/-- Atoms standing for the three fixed bytecode constants. -/
inductive BytecodeVal where
  | simpleStorage
  | erc20
  | betting
  deriving DecidableEq, Repr

def simpleStorageAbi : AbiVal := .simpleStorage
def erc20Abi : AbiVal := .erc20
def bettingContractAbi : AbiVal := .betting
def simpleStorageBytecode : BytecodeVal := .simpleStorage
def erc20Bytecode : BytecodeVal := .erc20
def bettingContractBytecode : BytecodeVal := .betting

/-- Result record of ContractService.compileContract. -/
structure CompiledContract where
  abi : AbiVal
  bytecode : BytecodeVal
  deriving DecidableEq, Repr

def simpleStorageName : Str := ("SimpleStorage").toList
def erc20Name : Str := ("ERC20Token").toList
def bettingName : Str := ("BettingContract").toList
def bettingSpacedName : Str := ("Betting Contract").toList

/-- Error message thrown for an unknown contract type. -/
def unsupportedMsg (contractType : Str) : Str :=
  ("Contract type ").toList ++ contractType ++ (" not supported").toList

/-- ContractService.compileContract: a static template lookup on the
contract-type name (the JS `switch`, with the two betting spellings
falling through to the same template); unknown names throw. -/
def compileContract (contractType : Str) : Except Str CompiledContract :=
  if contractType = simpleStorageName then
    .ok ⟨simpleStorageAbi, simpleStorageBytecode⟩
  else if contractType = erc20Name then
    .ok ⟨erc20Abi, erc20Bytecode⟩
  else if contractType = bettingName ∨ contractType = bettingSpacedName then
    .ok ⟨bettingContractAbi, bettingContractBytecode⟩
  else
    .error (unsupportedMsg contractType)

/-!
Data model (src/unnamed/part_010 `users`/`contracts` tables) and the
persistence/provider environment consumed by the services
(storage.getUserByUsername, storage.getContractByAddress, the JSON-RPC
provider, and the ethers/crypto primitives).
-/

/-- A user row (Credential Record): `password` is the stored `salt:hash`
record; the wallet columns are nullable. -/
structure User where
  username : Str
  password : Str
  walletAddress : Option Str
  walletEncryptedJson : Option Str
  deriving DecidableEq, Repr

/-- A contract row, restricted to the fields the signer reads. -/
structure ContractRecord where
  address : Str
  abi : AbiVal
  deriving DecidableEq, Repr

/-- External collaborators of the wallet/transaction subsystem, over an
abstract wallet type `W`: storage lookups, the ethers keystore and wallet
primitives, the scrypt KDF, and the RPC provider interactions. -/
structure Env (W : Type) where
  getUserByUsername : Str → Option User
  getContractByAddress : Str → Option ContractRecord
  scrypt : Str → Str → Str
  fromEncryptedJson : Str → Str → Except LibErr W
  encryptLib : W → Str → Str
  addressOf : W → Str
  sendTransaction : W → Str → Except Str Str
  deployToChain : W → CompiledContract → List Str → Except Str (Str × Str)
  callContractMethod : W → Str → AbiVal → Str → List Str → Str → Except Str Str

/-- Observable operations performed by a service call, in order. -/
inductive Event where
  | getUser (username : Str)
  | getContract (address : Str)
  | verifyPwd (password : Str)
  | decrypt
  | compile (contractType : Str)
  | providerSend
  | createContract
  | createTransaction
  deriving DecidableEq, Repr

/-- Recognizes a password-hash verification event. -/
def isVerifyPwd : Event → Bool
  | .verifyPwd _ => true
  | _ => false

def userNotFoundMsg : Str := ("User or wallet not found").toList
def contractNotFoundMsg : Str := ("Contract not found").toList

/-- TransactionService.signAndSendTransaction (src/server/transactionService.ts,
lines 24-60): user lookup, then wallet decryption, then fee fill-in and
provider submission; the catch block rethrows the original error.  The
result pairs the returned value (or thrown error) with the trace of
operations performed. -/
def signAndSendTransaction {W : Type} (env : Env W)
    (username password txData : Str) : Except Str Str × List Event :=
  let t1 := [Event.getUser username]
  match env.getUserByUsername username with
  | none => (.error userNotFoundMsg, t1)
  | some user =>
    match user.walletEncryptedJson with
    | none => (.error userNotFoundMsg, t1)
    | some blob =>
      let t2 := t1 ++ [Event.decrypt]
      match decryptWallet env.fromEncryptedJson blob password with
      | .error e => (.error e, t2)
      | .ok w =>
        let t3 := t2 ++ [Event.providerSend]
        match env.sendTransaction w txData with
        | .error e => (.error e, t3)
        | .ok tx => (.ok tx, t3)

/-- TransactionService.deployContract (lines 69-152): user lookup,
template lookup, wallet decryption, deployment (submission plus wait),
then contract and transaction records are persisted. -/
def deployContract {W : Type} (env : Env W)
    (username password contractType : Str) (constructorArgs : List Str) :
    Except Str (Str × Str) × List Event :=
  let t1 := [Event.getUser username]
  match env.getUserByUsername username with
  | none => (.error userNotFoundMsg, t1)
  | some user =>
    match user.walletEncryptedJson with
    | none => (.error userNotFoundMsg, t1)
    | some blob =>
      let t2 := t1 ++ [Event.compile contractType]
      match compileContract contractType with
      | .error e => (.error e, t2)
      | .ok compiled =>
        let t3 := t2 ++ [Event.decrypt]
        match decryptWallet env.fromEncryptedJson blob password with
        | .error e => (.error e, t3)
        | .ok w =>
          let t4 := t3 ++ [Event.providerSend]
          match env.deployToChain w compiled constructorArgs with
          | .error e => (.error e, t4)
          | .ok (addr, txHash) =>
            (.ok (addr, txHash),
             t4 ++ [Event.createContract, Event.createTransaction])

/-- TransactionService.executeContractMethod (lines 163-231): user lookup,
contract-record lookup, wallet decryption, method submission, then a
transaction record is persisted. -/
def executeContractMethod {W : Type} (env : Env W)
    (username password contractAddress methodName : Str)
    (args : List Str) (value : Str) : Except Str Str × List Event :=
  let t1 := [Event.getUser username]
  match env.getUserByUsername username with
  | none => (.error userNotFoundMsg, t1)
  | some user =>
    match user.walletEncryptedJson with
    | none => (.error userNotFoundMsg, t1)
    | some blob =>
      let t2 := t1 ++ [Event.getContract contractAddress]
      match env.getContractByAddress contractAddress with
      | none => (.error contractNotFoundMsg, t2)
      | some contract =>
        let t3 := t2 ++ [Event.decrypt]
        match decryptWallet env.fromEncryptedJson blob password with
        | .error e => (.error e, t3)
        | .ok w =>
          let t4 := t3 ++ [Event.providerSend]
          match env.callContractMethod w contractAddress contract.abi
              methodName args value with
          | .error e => (.error e, t4)
          | .ok txHash => (.ok txHash, t4 ++ [Event.createTransaction])

/-- The /api/wallet/decrypt route handler (src/unnamed/part_009, lines
118-164): the only key-releasing flow that re-verifies the password hash
before decryption. -/
def decryptRoute {W : Type} (env : Env W) (username password : Str) :
    Except Str W × List Event :=
  let t1 := [Event.getUser username]
  match env.getUserByUsername username with
  | none => (.error (("Wallet not found").toList), t1)
  | some user =>
    match user.walletEncryptedJson with
    | none => (.error (("Wallet not found").toList), t1)
    | some blob =>
      let t2 := t1 ++ [Event.verifyPwd password]
      if verifyPassword env.scrypt password user.password then
        let t3 := t2 ++ [Event.decrypt]
        match decryptWallet env.fromEncryptedJson blob password with
        | .error _ => (.error (("Failed to decrypt wallet").toList), t3)
        | .ok w => (.ok w, t3)
      else
        (.error (("Invalid password").toList), t2)

/-- WalletService.createWallet: generates a random keypair (the oracle
argument `newWallet`), encrypts it under the password, and returns the
address together with the encrypted JSON blob. -/
def createWallet {W : Type} (env : Env W) (newWallet : W) (password : Str) :
    Str × Str :=
  (env.addressOf newWallet, encryptWallet env.encryptLib newWallet password)

/-- The /api/register route handler (src/unnamed/part_009, lines 21-70):
password-confirmation check, duplicate-username check, one createWallet
call, one hashPassword call, then a single createUser write holding both
wallet fields from that one createWallet result. -/
def registerUser {W : Type} (env : Env W) (saltBytes : List Nat)
    (newWallet : W) (username password confirmPassword : Str) :
    Except Str User :=
  if password ≠ confirmPassword then
    .error (("Invalid registration data").toList)
  else
    match env.getUserByUsername username with
    | some _ => .error (("Username already taken").toList)
    | none =>
      let walletData := createWallet env newWallet password
      let hashedPassword := hashPassword env.scrypt saltBytes password
      .ok { username := username
            password := hashedPassword
            walletAddress := some walletData.1
            walletEncryptedJson := some walletData.2 }

/-!
A small concrete instantiation of the environment (wallet type `Nat`,
keystore and KDF replaced by the mocks above), used to evaluate the
services on explicit inputs.
-/

def aliceName : Str := ("alice").toList
def alicePwd : Str := ("a").toList
def wrongPwd : Str := ("b").toList
def bobName : Str := ("bob").toList
def bobPwd : Str := ("pw").toList
def aliceBlob : Str := ("encblob").toList
def aliceAddr : Str := ("0xalice").toList
def knownContractAddr : Str := ("0xc").toList
def missingContractAddr : Str := ("0xmissing").toList
def txHashStr : Str := ("0xhash").toList

/-- Stored credential record of the test user: `hashPassword` of the
correct password `"a"` under salt bytes `[1, 2]`. -/
def aliceStored : Str := hashPassword mockScrypt [1, 2] alicePwd

def aliceUser : User :=
  { username := aliceName
    password := aliceStored
    walletAddress := some aliceAddr
    walletEncryptedJson := some aliceBlob }

def concreteEnv : Env Nat :=
  { getUserByUsername := fun u => if u = aliceName then some aliceUser else none
    getContractByAddress := fun a =>
      if a = knownContractAddr then
        some { address := knownContractAddr, abi := AbiVal.simpleStorage }
      else none
    scrypt := mockScrypt
    fromEncryptedJson := fun b p =>
      if b = aliceBlob ∧ p = alicePwd then .ok 7 else .error .wrongPassword
    encryptLib := mockEncrypt
    addressOf := fun w => hexEncode [w % 256]
    sendTransaction := fun _ _ => .ok txHashStr
    deployToChain := fun _ _ _ => .ok (knownContractAddr, txHashStr)
    callContractMethod := fun _ _ _ _ _ _ => .ok txHashStr }

/-!
Theorems.
-/

/-- Key shape fact: verifying any password `P` against a record produced
by `hashPassword` for password `P2` reduces to comparing the two scrypt
derivations under the record's salt. -/
theorem verifyPassword_hashPassword_eq (scrypt : Str → Str → Str)
    (hnc : ∀ p s, ':' ∉ scrypt p s) (saltBytes : List Nat) (P P2 : Str) :
    verifyPassword scrypt P (hashPassword scrypt saltBytes P2)
      = (scrypt P2 (hexEncode saltBytes) == scrypt P (hexEncode saltBytes)) := by
  unfold verifyPassword hashPassword
  rw [jsSplit_append ':' (hexEncode saltBytes) (scrypt P2 (hexEncode saltBytes))
        (hexEncode_no_colon saltBytes),
      jsSplit_no_sep ':' (scrypt P2 (hexEncode saltBytes))
        (hnc P2 (hexEncode saltBytes))]
  rfl

/-- Record shape fact: a `hashPassword` record splits on `':'` into
exactly the hex salt followed by the scrypt hash. -/
theorem hashPassword_split (scrypt : Str → Str → Str)
    (hnc : ∀ p s, ':' ∉ scrypt p s) (saltBytes : List Nat) (P : Str) :
    jsSplit ':' (hashPassword scrypt saltBytes P)
      = [hexEncode saltBytes, scrypt P (hexEncode saltBytes)] := by
  unfold hashPassword
  rw [jsSplit_append ':' (hexEncode saltBytes) (scrypt P (hexEncode saltBytes))
        (hexEncode_no_colon saltBytes),
      jsSplit_no_sep ':' (scrypt P (hexEncode saltBytes))
        (hnc P (hexEncode saltBytes))]

/-- C3: for every password P, verifyPassword(P, hashPassword(P)) returns
true, and for distinct passwords P ≠ P2, verifyPassword(P, hashPassword(P2))
returns false.  The scrypt primitive is a parameter; the false case
assumes it is collision-free per salt (injective in the password), and
both cases use that its hex output contains no colon. -/
theorem verifyPassword_hashPassword_correct (scrypt : Str → Str → Str)
    (hnc : ∀ p s, ':' ∉ scrypt p s)
    (hinj : ∀ s p p2, scrypt p s = scrypt p2 s → p = p2)
    (saltBytes : List Nat) (P P2 : Str) :
    verifyPassword scrypt P (hashPassword scrypt saltBytes P) = true ∧
    (P ≠ P2 → verifyPassword scrypt P (hashPassword scrypt saltBytes P2) = false) := by
  constructor
  · rw [verifyPassword_hashPassword_eq scrypt hnc saltBytes P P]
    exact beq_self_eq_true _
  · intro hne
    rw [verifyPassword_hashPassword_eq scrypt hnc saltBytes P P2]
    by_contra hb
    have heq : scrypt P2 (hexEncode saltBytes) = scrypt P (hexEncode saltBytes) :=
      eq_of_beq (by simpa using hb)
    exact hne ((hinj (hexEncode saltBytes) P2 P heq).symm)

/-- Witness for C3 at the mock KDF, password "a" versus "b", salt bytes
[1, 2]. -/
theorem verifyPassword_hashPassword_correct_witness :
    verifyPassword mockScrypt (("a").toList)
      (hashPassword mockScrypt [1, 2] (("a").toList)) = true ∧
    verifyPassword mockScrypt (("a").toList)
      (hashPassword mockScrypt [1, 2] (("b").toList)) = false :=
  ⟨(verifyPassword_hashPassword_correct mockScrypt mockScrypt_no_colon
      mockScrypt_inj [1, 2] (("a").toList) (("b").toList)).1,
   (verifyPassword_hashPassword_correct mockScrypt mockScrypt_no_colon
      mockScrypt_inj [1, 2] (("a").toList) (("b").toList)).2 (by decide)⟩

/-- C10: verifyPassword is total on the stored record; on a malformed
record with no ':' separator it returns false (the JS destructuring leaves
the stored hash `undefined`, and the final strict equality is false)
rather than throwing. -/
theorem verifyPassword_malformed_false (scrypt : Str → Str → Str)
    (password rec : Str) (h : ':' ∉ rec) :
    verifyPassword scrypt password rec = false := by
  unfold verifyPassword
  rw [jsSplit_no_sep ':' rec h]
  rfl

/-- Witness for C10 on the colon-free record "nocolon". -/
theorem verifyPassword_malformed_false_witness :
    verifyPassword mockScrypt (("a").toList) (("nocolon").toList) = false :=
  verifyPassword_malformed_false mockScrypt (("a").toList) (("nocolon").toList)
    (by decide)

/-- C7: hashPassword uses the oracle's fresh 16-byte random salt,
hex-encodes it (32 colon-free characters), stores `salt:hash` with the
hash the scrypt derivation of the password under that salt; two calls
drawing distinct salts produce distinct records, and both records verify
against the password. -/
theorem hashPassword_fresh_salts (scrypt : Str → Str → Str)
    (hnc : ∀ p s, ':' ∉ scrypt p s) (b1 b2 : List Nat)
    (hv1 : ∀ x ∈ b1, x < 256) (hv2 : ∀ x ∈ b2, x < 256)
    (hl1 : b1.length = 16) (hne : b1 ≠ b2) (P : Str) :
    hashPassword scrypt b1 P ≠ hashPassword scrypt b2 P ∧
    verifyPassword scrypt P (hashPassword scrypt b1 P) = true ∧
    verifyPassword scrypt P (hashPassword scrypt b2 P) = true ∧
    jsSplit ':' (hashPassword scrypt b1 P)
      = [hexEncode b1, scrypt P (hexEncode b1)] ∧
    (hexEncode b1).length = 32 := by
  refine ⟨?_, ?_, ?_, hashPassword_split scrypt hnc b1 P, ?_⟩
  · intro heq
    have hsplit : jsSplit ':' (hashPassword scrypt b1 P)
        = jsSplit ':' (hashPassword scrypt b2 P) := by rw [heq]
    rw [hashPassword_split scrypt hnc b1 P,
        hashPassword_split scrypt hnc b2 P] at hsplit
    have hsalt : hexEncode b1 = hexEncode b2 :=
      (List.cons.injEq _ _ _ _ ▸ hsplit).1
    exact hne (hexEncode_inj b1 hv1 b2 hv2 hsalt)
  · rw [verifyPassword_hashPassword_eq scrypt hnc b1 P P]
    exact beq_self_eq_true _
  · rw [verifyPassword_hashPassword_eq scrypt hnc b2 P P]
    exact beq_self_eq_true _
  · rw [hexEncode_length, hl1]

/-- Witness for C7 at the mock KDF with the two distinct 16-byte draws
`range 16` and sixteen zero bytes. -/
theorem hashPassword_fresh_salts_witness :
    hashPassword mockScrypt (List.range 16) bobPwd
      ≠ hashPassword mockScrypt (List.replicate 16 0) bobPwd ∧
    verifyPassword mockScrypt bobPwd
      (hashPassword mockScrypt (List.range 16) bobPwd) = true ∧
    verifyPassword mockScrypt bobPwd
      (hashPassword mockScrypt (List.replicate 16 0) bobPwd) = true ∧
    jsSplit ':' (hashPassword mockScrypt (List.range 16) bobPwd)
      = [hexEncode (List.range 16), mockScrypt bobPwd (hexEncode (List.range 16))] ∧
    (hexEncode (List.range 16)).length = 32 :=
  hashPassword_fresh_salts mockScrypt mockScrypt_no_colon (List.range 16)
    (List.replicate 16 0) (by decide) (by decide) (by decide) (by decide) bobPwd

/-- C2: decrypting the blob produced by encryptWallet with the same
password returns the original wallet, and decrypting it with any other
password fails with the single InvalidCredential error.  The ethers
keystore primitive is a parameter; the hypotheses state its round-trip
and authentication contracts, and the theorem shows the service wrappers
preserve them, collapsing the failure into the opaque error. -/
theorem decryptWallet_encryptWallet_roundtrip {W : Type}
    (encryptLib : W → Str → Str)
    (fromEncryptedJson : Str → Str → Except LibErr W)
    (hround : ∀ w p, fromEncryptedJson (encryptLib w p) p = .ok w)
    (hauth : ∀ w p p2, p2 ≠ p → (fromEncryptedJson (encryptLib w p) p2).isOk = false)
    (w : W) (p p2 : Str) :
    decryptWallet fromEncryptedJson (encryptWallet encryptLib w p) p = .ok w ∧
    (p2 ≠ p →
      decryptWallet fromEncryptedJson (encryptWallet encryptLib w p) p2
        = .error invalidCredentialMsg) := by
  constructor
  · unfold decryptWallet encryptWallet
    rw [hround w p]
  · intro hne
    unfold decryptWallet encryptWallet
    have h := hauth w p p2 hne
    cases hf : fromEncryptedJson (encryptLib w p) p2 with
    | ok v => rw [hf] at h; simp [Except.isOk, Except.toBool] at h
    | error e => rfl

/-- Witness for C2 at the mock keystore, wallet 3, passwords "p" and "q". -/
theorem decryptWallet_encryptWallet_roundtrip_witness :
    decryptWallet mockFromEncryptedJson
      (encryptWallet mockEncrypt 3 (("p").toList)) (("p").toList) = .ok 3 ∧
    decryptWallet mockFromEncryptedJson
      (encryptWallet mockEncrypt 3 (("p").toList)) (("q").toList)
      = .error invalidCredentialMsg :=
  ⟨(decryptWallet_encryptWallet_roundtrip mockEncrypt mockFromEncryptedJson
      mock_roundtrip (fun w p p2 => mock_auth w p p2) 3
      (("p").toList) (("q").toList)).1,
   (decryptWallet_encryptWallet_roundtrip mockEncrypt mockFromEncryptedJson
      mock_roundtrip (fun w p p2 => mock_auth w p p2) 3
      (("p").toList) (("q").toList)).2 (by decide)⟩

/-- C4: whenever the underlying keystore decryption fails — for a wrong
password or for corrupted/unparseable data alike — decryptWallet throws
the one fixed opaque error, the error value is identical across any two
failing inputs, and decryption never partially succeeds: an ok result
carries exactly a wallet the keystore fully decrypted. -/
theorem decryptWallet_opaque_failure {W : Type}
    (fromEncryptedJson : Str → Str → Except LibErr W)
    (blob pw blob2 pw2 : Str)
    (h1 : (fromEncryptedJson blob pw).isOk = false)
    (h2 : (fromEncryptedJson blob2 pw2).isOk = false) :
    decryptWallet fromEncryptedJson blob pw = .error invalidCredentialMsg ∧
    decryptWallet fromEncryptedJson blob2 pw2
      = decryptWallet fromEncryptedJson blob pw ∧
    (∀ b p w, decryptWallet fromEncryptedJson b p = .ok w →
      fromEncryptedJson b p = .ok w) := by
  have hfail : ∀ b p, (fromEncryptedJson b p).isOk = false →
      decryptWallet fromEncryptedJson b p = .error invalidCredentialMsg := by
    intro b p h
    unfold decryptWallet
    cases hf : fromEncryptedJson b p with
    | ok v => rw [hf] at h; simp [Except.isOk, Except.toBool] at h
    | error e => rfl
  refine ⟨hfail blob pw h1, ?_, ?_⟩
  · rw [hfail blob pw h1, hfail blob2 pw2 h2]
  · intro b p w h
    unfold decryptWallet at h
    cases hf : fromEncryptedJson b p with
    | ok v => rw [hf] at h; simpa using h
    | error e => rw [hf] at h; simp at h

/-- Keystore stand-in whose failure cause depends on the input: the empty
blob is "corrupted data", any other blob is "wrong password". -/
def mockFejCauses : Str → Str → Except LibErr Nat :=
  fun blob _ => if blob = [] then .error .corruptData else .error .wrongPassword

/-- Witness for C4: a corrupted-data failure and a wrong-password failure
surface as the same opaque error. -/
theorem decryptWallet_opaque_failure_witness :
    decryptWallet mockFejCauses [] (("x").toList) = .error invalidCredentialMsg ∧
    decryptWallet mockFejCauses (("blob").toList) (("y").toList)
      = decryptWallet mockFejCauses [] (("x").toList) ∧
    (∀ b p w, decryptWallet mockFejCauses b p = .ok w →
      mockFejCauses b p = .ok w) :=
  decryptWallet_opaque_failure mockFejCauses [] (("x").toList)
    (("blob").toList) (("y").toList) (by decide) (by decide)

/-- C5: when the user exists (with a wallet blob) but no contract record
matches the target address, executeContractMethod fails with the
ContractNotFound error and no provider submission is reached. -/
theorem executeContractMethod_contract_not_found {W : Type} (env : Env W)
    (u p ca m v : Str) (args : List Str) (user : User) (blob : Str)
    (hu : env.getUserByUsername u = some user)
    (hb : user.walletEncryptedJson = some blob)
    (hc : env.getContractByAddress ca = none) :
    (executeContractMethod env u p ca m args v).1 = .error contractNotFoundMsg ∧
    Event.providerSend ∉ (executeContractMethod env u p ca m args v).2 := by
  simp only [executeContractMethod, hu, hb, hc]
  refine ⟨trivial, ?_⟩
  simp

/-- Witness for C5: the concrete environment, the correct password, and an
address with no contract record. -/
theorem executeContractMethod_contract_not_found_witness :
    (executeContractMethod concreteEnv aliceName alicePwd missingContractAddr
      (("set").toList) [] (("0").toList)).1 = .error contractNotFoundMsg ∧
    Event.providerSend ∉ (executeContractMethod concreteEnv aliceName alicePwd
      missingContractAddr (("set").toList) [] (("0").toList)).2 :=
  executeContractMethod_contract_not_found concreteEnv aliceName alicePwd
    missingContractAddr (("set").toList) (("0").toList) [] aliceUser aliceBlob
    (by decide) (by decide) (by decide)

/-- C9: in executeContractMethod the contract-record lookup precedes both
wallet decryption and any password check: with an existing user and a
contract address with no record, the call fails with ContractNotFound for
every supplied password, wallet decryption is never attempted, and the
stored password hash is never verified — so contract existence is
observable without knowing the password. -/
theorem executeContractMethod_lookup_before_password {W : Type} (env : Env W)
    (u p ca m v : Str) (args : List Str) (user : User) (blob : Str)
    (hu : env.getUserByUsername u = some user)
    (hb : user.walletEncryptedJson = some blob)
    (hc : env.getContractByAddress ca = none) :
    (executeContractMethod env u p ca m args v).1 = .error contractNotFoundMsg ∧
    Event.decrypt ∉ (executeContractMethod env u p ca m args v).2 ∧
    ((executeContractMethod env u p ca m args v).2.any isVerifyPwd) = false := by
  simp only [executeContractMethod, hu, hb, hc]
  refine ⟨trivial, ?_, by simp [isVerifyPwd]⟩
  simp

/-- Witness for C9: the same missing contract address, with a wrong
password. -/
theorem executeContractMethod_lookup_before_password_witness :
    (executeContractMethod concreteEnv aliceName wrongPwd missingContractAddr
      (("set").toList) [] (("0").toList)).1 = .error contractNotFoundMsg ∧
    Event.decrypt ∉ (executeContractMethod concreteEnv aliceName wrongPwd
      missingContractAddr (("set").toList) [] (("0").toList)).2 ∧
    ((executeContractMethod concreteEnv aliceName wrongPwd missingContractAddr
      (("set").toList) [] (("0").toList)).2.any isVerifyPwd) = false :=
  executeContractMethod_lookup_before_password concreteEnv aliceName wrongPwd
    missingContractAddr (("set").toList) (("0").toList) [] aliceUser aliceBlob
    (by decide) (by decide) (by decide)

/-- The four contract-type names accepted by compileContract. -/
def supportedNames : List Str :=
  [simpleStorageName, erc20Name, bettingName, bettingSpacedName]

/-- C6: compileContract throws the UnsupportedContractType error for any
name outside the four supported template names — and deployContract,
reaching the template lookup for an existing user, fails with that same
error — while each supported name returns its fixed {abi, bytecode}
pair. -/
theorem compileContract_templates {W : Type} (env : Env W)
    (u p t : Str) (args : List Str) (user : User) (blob : Str)
    (hu : env.getUserByUsername u = some user)
    (hb : user.walletEncryptedJson = some blob)
    (ht : t ∉ supportedNames) :
    compileContract t = .error (unsupportedMsg t) ∧
    (deployContract env u p t args).1 = .error (unsupportedMsg t) ∧
    compileContract simpleStorageName = .ok ⟨simpleStorageAbi, simpleStorageBytecode⟩ ∧
    compileContract erc20Name = .ok ⟨erc20Abi, erc20Bytecode⟩ ∧
    compileContract bettingName = .ok ⟨bettingContractAbi, bettingContractBytecode⟩ ∧
    compileContract bettingSpacedName = .ok ⟨bettingContractAbi, bettingContractBytecode⟩ := by
  simp only [supportedNames, List.mem_cons, List.not_mem_nil, or_false, not_or] at ht
  obtain ⟨h1, h2, h3, h4⟩ := ht
  have hcc : compileContract t = .error (unsupportedMsg t) := by
    unfold compileContract
    rw [if_neg h1, if_neg h2, if_neg (by rintro (h | h) <;> [exact h3 h; exact h4 h])]
  refine ⟨hcc, ?_, by rfl, by rfl, by rfl, by rfl⟩
  simp only [deployContract, hu, hb, hcc]

/-- Witness for C6 at the unknown name "Nope". -/
theorem compileContract_templates_witness :
    compileContract (("Nope").toList) = .error (unsupportedMsg (("Nope").toList)) ∧
    (deployContract concreteEnv aliceName alicePwd (("Nope").toList) []).1
      = .error (unsupportedMsg (("Nope").toList)) ∧
    compileContract simpleStorageName = .ok ⟨simpleStorageAbi, simpleStorageBytecode⟩ ∧
    compileContract erc20Name = .ok ⟨erc20Abi, erc20Bytecode⟩ ∧
    compileContract bettingName = .ok ⟨bettingContractAbi, bettingContractBytecode⟩ ∧
    compileContract bettingSpacedName = .ok ⟨bettingContractAbi, bettingContractBytecode⟩ :=
  compileContract_templates concreteEnv aliceName alicePwd (("Nope").toList) []
    aliceUser aliceBlob (by decide) (by decide) (by decide)

/-- C8: a Credential Record created by the /api/register flow always has
both wallet fields set, and both come from the single createWallet call:
the invariant "walletAddress non-null iff walletEncryptedJson non-null"
holds for every record the registration flow can write. -/
theorem registerUser_wallet_atomic {W : Type} (env : Env W)
    (saltBytes : List Nat) (newWallet : W)
    (username password confirmPassword : Str) (user : User)
    (h : registerUser env saltBytes newWallet username password confirmPassword
      = .ok user) :
    user.walletAddress = some (createWallet env newWallet password).1 ∧
    user.walletEncryptedJson = some (createWallet env newWallet password).2 ∧
    user.walletAddress.isSome = true ∧
    user.walletEncryptedJson.isSome = true := by
  unfold registerUser at h
  split at h
  · exact Except.noConfusion h
  · split at h
    · exact Except.noConfusion h
    · simp only [Except.ok.injEq] at h
      subst h
      exact ⟨rfl, rfl, rfl, rfl⟩

/-- Witness for C8: registering "bob" in the concrete environment. -/
theorem registerUser_wallet_atomic_witness :
    ({ username := bobName
       password := hashPassword mockScrypt [3] bobPwd
       walletAddress := some (createWallet concreteEnv (5 : Nat) bobPwd).1
       walletEncryptedJson := some (createWallet concreteEnv (5 : Nat) bobPwd).2
       : User }).walletAddress
      = some (createWallet concreteEnv (5 : Nat) bobPwd).1 ∧
    ({ username := bobName
       password := hashPassword mockScrypt [3] bobPwd
       walletAddress := some (createWallet concreteEnv (5 : Nat) bobPwd).1
       walletEncryptedJson := some (createWallet concreteEnv (5 : Nat) bobPwd).2
       : User }).walletEncryptedJson
      = some (createWallet concreteEnv (5 : Nat) bobPwd).2 ∧
    (some (createWallet concreteEnv (5 : Nat) bobPwd).1).isSome = true ∧
    (some (createWallet concreteEnv (5 : Nat) bobPwd).2).isSome = true :=
  registerUser_wallet_atomic concreteEnv [3] 5 bobName bobPwd bobPwd
    { username := bobName
      password := hashPassword mockScrypt [3] bobPwd
      walletAddress := some (createWallet concreteEnv (5 : Nat) bobPwd).1
      walletEncryptedJson := some (createWallet concreteEnv (5 : Nat) bobPwd).2 }
    (by rfl)

def setName : Str := ("set").toList
def zeroVal : Str := ("0").toList

/-- C1 is false on the code: in the concrete environment the stored hash
does NOT verify the supplied password, yet executeContractMethod still
attempts wallet decryption, and its trace contains no password-hash
verification at all. -/
theorem executeContractMethod_no_prior_verification_cex :
    verifyPassword concreteEnv.scrypt wrongPwd aliceUser.password = false ∧
    Event.decrypt ∈ (executeContractMethod concreteEnv aliceName wrongPwd
      knownContractAddr setName [] zeroVal).2 ∧
    ((executeContractMethod concreteEnv aliceName wrongPwd knownContractAddr
      setName [] zeroVal).2.any isVerifyPwd) = false := by
  decide

/-- C1 (amended): none of signAndSendTransaction, deployContract and
executeContractMethod ever verifies the caller's password against the
stored hash (no verifyPwd operation occurs in any of their traces, for
any environment and input); each proceeds directly to wallet decryption
once its lookups succeed, so the password is checked only implicitly by
the decryption attempt. -/
theorem txServices_no_hash_verification {W : Type} (env : Env W)
    (u p tx ct ca m v : Str) (args : List Str) (user : User) (blob : Str)
    (hu : env.getUserByUsername u = some user)
    (hb : user.walletEncryptedJson = some blob)
    (hcc : ∃ cc, compileContract ct = .ok cc)
    (hca : ∃ c, env.getContractByAddress ca = some c) :
    (∀ u' p' tx' : Str,
      ((signAndSendTransaction env u' p' tx').2.any isVerifyPwd) = false) ∧
    (∀ (u' p' ct' : Str) (args' : List Str),
      ((deployContract env u' p' ct' args').2.any isVerifyPwd) = false) ∧
    (∀ (u' p' ca' m' v' : Str) (args' : List Str),
      ((executeContractMethod env u' p' ca' m' args' v').2.any isVerifyPwd) = false) ∧
    Event.decrypt ∈ (signAndSendTransaction env u p tx).2 ∧
    Event.decrypt ∈ (deployContract env u p ct args).2 ∧
    Event.decrypt ∈ (executeContractMethod env u p ca m args v).2 := by
  obtain ⟨cc, hccEq⟩ := hcc
  obtain ⟨c0, hcaEq⟩ := hca
  refine ⟨?_, ?_, ?_, ?_, ?_, ?_⟩
  · intro u' p' tx'
    unfold signAndSendTransaction
    repeat' split
    all_goals simp [isVerifyPwd]
  · intro u' p' ct' args'
    unfold deployContract
    repeat' split
    all_goals simp [isVerifyPwd]
  · intro u' p' ca' m' v' args'
    unfold executeContractMethod
    repeat' split
    all_goals simp [isVerifyPwd]
  · simp only [signAndSendTransaction, hu, hb]
    repeat' split
    all_goals simp
  · simp only [deployContract, hu, hb, hccEq]
    repeat' split
    all_goals simp
  · simp only [executeContractMethod, hu, hb, hcaEq]
    repeat' split
    all_goals simp

/-- Witness for the amended C1 in the concrete environment, with a wrong
password. -/
theorem txServices_no_hash_verification_witness :
    ((signAndSendTransaction concreteEnv aliceName wrongPwd txHashStr).2.any
      isVerifyPwd) = false ∧
    ((deployContract concreteEnv aliceName wrongPwd simpleStorageName []).2.any
      isVerifyPwd) = false ∧
    ((executeContractMethod concreteEnv aliceName wrongPwd knownContractAddr
      setName [] zeroVal).2.any isVerifyPwd) = false ∧
    Event.decrypt ∈ (signAndSendTransaction concreteEnv aliceName wrongPwd
      txHashStr).2 ∧
    Event.decrypt ∈ (deployContract concreteEnv aliceName wrongPwd
      simpleStorageName []).2 ∧
    Event.decrypt ∈ (executeContractMethod concreteEnv aliceName wrongPwd
      knownContractAddr setName [] zeroVal).2 := by
  have h := txServices_no_hash_verification concreteEnv aliceName wrongPwd
    txHashStr simpleStorageName knownContractAddr setName zeroVal [] aliceUser
    aliceBlob (by decide) (by decide)
    ⟨⟨simpleStorageAbi, simpleStorageBytecode⟩, by rfl⟩
    ⟨{ address := knownContractAddr, abi := AbiVal.simpleStorage }, by decide⟩
  exact ⟨h.1 aliceName wrongPwd txHashStr,
    h.2.1 aliceName wrongPwd simpleStorageName [],
    h.2.2.1 aliceName wrongPwd knownContractAddr setName zeroVal [],
    h.2.2.2.1, h.2.2.2.2.1, h.2.2.2.2.2⟩

end ArbitrumSmartchain
